import Mathlib

/-!
Verification of the task_orchestrator repository.

The repository is a small Rust program (src/main.rs, src/orchestrator.rs,
src/task.rs, src/task_blueprint.rs) that concurrently executes a batch of
identified tasks, isolates per-task failures, deduplicates the terminal
results by task identity and serializes them as CSV.

This file gives a shallow embedding of the program:

* The external Task Executor (`TaskBlueprint::execute`) is an opaque async
  capability; it is modelled as a function `exec : Nat -> Except String Unit`
  (success or a failure carrying a descriptive message), passed explicitly.
* Concurrency is modelled by an explicit completion-arrival order: both
  dispatch strategies spawn one execution unit per task (in input order) and
  collect the resulting `TaskResult`s in a scheduler-chosen arrival order,
  modelled as a list `arrival : List Nat` of indices into the spawned
  results.  A run of the real program corresponds to an `arrival` that is a
  permutation of `List.range N`.
* The `u64` task identifiers carry no arithmetic, so they are modelled as
  `Nat`.
* The csv crate's writer emits the header record lazily, on the first
  `serialize` call; with zero records the output is empty.  CSV output is
  modelled at the record level, as a `List (List String)` of records
  (header record included when emitted), which sidesteps field quoting.
-/

/-- Mirrors `TaskInput` in src/task.rs: a task identifier plus a task type
string, as parsed from one CSV row. -/
structure TaskInput where
  task_id : Nat
  task_type : String
deriving Repr, DecidableEq

/-- Mirrors the `TaskStatus` enum in src/task.rs. -/
inductive TaskStatus where
  | Pending
  | Running
  | Completed
  | Failed
deriving Repr, DecidableEq

/-- Mirrors `TaskResult` in src/task.rs: identity, status, optional error
description. -/
structure TaskResult where
  task_id : Nat
  status : TaskStatus
  error_info : Option String
deriving Repr, DecidableEq

/-- Mirrors `TaskOutput` in src/task.rs: the serialized projection of a
`TaskResult`. -/
structure TaskOutput where
  task_id : Nat
  final_status : String
  error_info : String
deriving Repr, DecidableEq

/-- Mirrors `impl From TaskResult for TaskOutput` in src/task.rs
(lines 34-50): `Completed` maps to the string "Completed", every other
status to "Failed"; `error_info` is `unwrap_or_default` (empty string when
absent); `task_id` is copied through. -/
def TaskOutput.ofResult (result : TaskResult) : TaskOutput :=
  let final_status :=
    match result.status with
    | TaskStatus.Completed => "Completed"
    | TaskStatus.Failed => "Failed"
    | _ => "Failed"
  let error_info := result.error_info.getD ""
  { task_id := result.task_id, final_status := final_status,
    error_info := error_info }

/-- Mirrors `TaskOrchestrator::execute_single_task` in src/orchestrator.rs
(lines 60-76): start from a `Running` result with no error, then invoke the
Task Executor; on `Ok` set status `Completed`, on `Err e` set status
`Failed` and `error_info` to the failure's description.  The executor
`TaskBlueprint::execute` is external (network call, delay, log emission)
and is passed in as `exec`. -/
def execute_single_task (exec : Nat → Except String Unit) (task_id : Nat) :
    TaskResult :=
  let result : TaskResult :=
    { task_id := task_id, status := TaskStatus.Running, error_info := none }
  match exec task_id with
  | Except.ok () => { result with status := TaskStatus.Completed }
  | Except.error e =>
      { result with status := TaskStatus.Failed, error_info := some e }

/-- The list of results produced by the spawned execution units, in spawn
(input) order: both strategies in src/orchestrator.rs launch
`execute_single_task task.task_id` once per input task. -/
def spawnResults (exec : Nat → Except String Unit) (tasks : List TaskInput) :
    List TaskResult :=
  tasks.map (fun t => execute_single_task exec t.task_id)

/-- Collection of spawned results in a scheduler-chosen completion-arrival
order: `arrival` lists indices of the spawned results in the order their
execution units complete.  In a real run `arrival` is a permutation of
`List.range rs.length`; out-of-range indices (impossible in a run) are
skipped. -/
def collectByArrival (rs : List TaskResult) (arrival : List Nat) :
    List TaskResult :=
  arrival.filterMap (fun i => rs[i]?)

/-- Mirrors `TaskOrchestrator::execute_tasks` in src/orchestrator.rs
(lines 15-42): the bounded-queue strategy.  One unit is spawned per task;
each sends its `TaskResult` into an mpsc channel of capacity 1000; the
collector drains the channel until all senders are dropped, then awaits
every handle.  The channel delivers exactly the spawned results, in
completion-arrival order; the capacity only bounds buffering and does not
affect which results are delivered. -/
def execute_tasks (exec : Nat → Except String Unit) (tasks : List TaskInput)
    (arrival : List Nat) : List TaskResult :=
  collectByArrival (spawnResults exec tasks) arrival

/-- Mirrors `TaskOrchestrator::execute_tasks_streaming` in
src/orchestrator.rs (lines 45-58): the unordered-pool (streaming) strategy.
All per-task futures are pushed into a `FuturesUnordered` set and the
collector appends each next completed member until the set is empty — the
same spawned results, collected in completion-arrival order. -/
def execute_tasks_streaming (exec : Nat → Except String Unit)
    (tasks : List TaskInput) (arrival : List Nat) : List TaskResult :=
  collectByArrival (spawnResults exec tasks) arrival

/-- A result is terminal when its status is `Completed` or `Failed`. -/
def isTerminal (r : TaskResult) : Bool :=
  match r.status with
  | TaskStatus.Completed => true
  | TaskStatus.Failed => true
  | _ => false

/-- The last element of `rs` whose `task_id` equals `id`, if any: the
record that survives last-write-wins deduplication for key `id`. -/
def latestRes : List TaskResult → Nat → Option TaskResult
  | [], _ => none
  | r :: rs, id =>
      match latestRes rs id with
      | some x => some x
      | none => if r.task_id == id then some r else none

/-- Mirrors the dedup loop of `write_results_to_csv` in src/task.rs
(lines 66-71): fold the results into a map keyed by `task_id`, a later
insert with an already-present key overwriting the earlier entry.  The
`AHashMap` iteration order is unspecified; the model fixes one admissible
order (order of last insertion) by representing the map as a list without
duplicate keys, where insert removes any previous entry for the key and
appends the new one. -/
def uniqueResults (results : List TaskResult) : List TaskResult :=
  results.foldl
    (fun m r => m.filter (fun x => x.task_id != r.task_id) ++ [r]) []

/-- The records serialized by `write_results_to_csv` in src/task.rs
(lines 73-78): every surviving entry of the dedup map, projected into a
`TaskOutput` via the `From` impl. -/
def writeRecords (results : List TaskResult) : List TaskOutput :=
  (uniqueResults results).map TaskOutput.ofResult

/-- The CSV header record the csv crate derives from `TaskOutput`'s field
names. -/
def csvHeaderRecord : List String := ["task_id", "final_status", "error_info"]

/-- The CSV record for one `TaskOutput`. -/
def csvRecord (o : TaskOutput) : List String :=
  [toString o.task_id, o.final_status, o.error_info]

/-- Mirrors `write_results_to_csv` in src/task.rs (lines 65-82), at the
record level: dedup by `task_id` (last write wins), then serialize every
surviving entry.  The csv crate writes the header record lazily, on the
first `serialize` call, so with zero records the output is empty. -/
def write_results_to_csv (results : List TaskResult) :
    List (List String) :=
  match writeRecords results with
  | [] => []
  | records => csvHeaderRecord :: records.map csvRecord

/-- Mirrors the strategy threshold in src/main.rs line 21:
`tasks.len() > 1000`. -/
def streamingThreshold : Nat := 1000

/-- Mirrors the mpsc channel capacity in src/orchestrator.rs line 16. -/
def channelCapacity : Nat := 1000

/-- The two dispatch strategies of the orchestrator. -/
inductive Strategy where
  | boundedQueue
  | streamingPool
deriving Repr, DecidableEq

/-- Mirrors the strategy selection in src/main.rs (lines 21-26): the
streaming variant is used when the parsed task count exceeds 1000,
otherwise the bounded-queue variant. -/
def selectStrategy (taskCount : Nat) : Strategy :=
  if taskCount > streamingThreshold then Strategy.streamingPool
  else Strategy.boundedQueue

/-- Mirrors `main` in src/main.rs (lines 9-32).  The process environment is
passed explicitly: `args` is the full argv (program name included) and
`readResult` is the outcome of `read_tasks_from_csv` on the given path
(file reading is external I/O; a read or parse failure surfaces as
`Except.error`).  With other than exactly one positional argument, main
bails with a usage error; a read/parse error propagates via `?`; otherwise
the strategy chosen by the task count runs all tasks and the deduplicated
CSV output is produced. -/
def mainModel (args : List String)
    (readResult : Except String (List TaskInput))
    (exec : Nat → Except String Unit) (arrival : List Nat) :
    Except String (List (List String)) :=
  if args.length ≠ 2 then
    Except.error ("Usage: " ++ args.headD "" ++ " <tasks.csv>")
  else
    match readResult with
    | Except.error e => Except.error e
    | Except.ok tasks =>
        let results :=
          if tasks.length > streamingThreshold then
            execute_tasks_streaming exec tasks arrival
          else
            execute_tasks exec tasks arrival
        Except.ok (write_results_to_csv results)

/-! ### Helper lemmas -/

/-- Collecting by the identity arrival order returns the spawned results. -/
theorem filterMap_getElem_range {α : Type} (rs : List α) :
    (List.range rs.length).filterMap (fun i => rs[i]?) = rs := by
  induction rs with
  | nil => rfl
  | cons a rs ih =>
    rw [List.length_cons, List.range_succ_eq_map, List.filterMap_cons]
    simp only [List.getElem?_cons_zero, List.filterMap_map, Function.comp_def,
      List.getElem?_cons_succ]
    rw [ih]

/-- A valid arrival order delivers a permutation of the spawned results. -/
theorem collectByArrival_perm (rs : List TaskResult) (arrival : List Nat)
    (h : arrival.Perm (List.range rs.length)) :
    (collectByArrival rs arrival).Perm rs := by
  have hp := h.filterMap (fun i => rs[i]?)
  rwa [filterMap_getElem_range rs] at hp

/-- Every collected result is one of the spawned results. -/
theorem mem_of_collectByArrival {rs : List TaskResult} {arrival : List Nat}
    {x : TaskResult} (hx : x ∈ collectByArrival rs arrival) : x ∈ rs := by
  rw [collectByArrival, List.mem_filterMap] at hx
  obtain ⟨i, _, hi⟩ := hx
  obtain ⟨hn, rfl⟩ := List.getElem?_eq_some.mp hi
  exact List.getElem_mem hn

/-- The wrapper always yields a terminal status. -/
theorem isTerminal_execute_single_task (exec : Nat → Except String Unit)
    (id : Nat) : isTerminal (execute_single_task exec id) = true := by
  cases h : exec id with
  | ok u => cases u; simp [execute_single_task, isTerminal, h]
  | error e => simp [execute_single_task, isTerminal, h]

/-- Filtering the dedup fold by one key keeps exactly the latest entry for
that key (or the initial accumulator's entries when the key never occurs). -/
theorem filter_foldl_dedup (id : Nat) (rs : List TaskResult) :
    ∀ m : List TaskResult,
      ((rs.foldl
          (fun m r => m.filter (fun x => x.task_id != r.task_id) ++ [r])
          m).filter (fun x => x.task_id == id)) =
        match latestRes rs id with
        | some r => [r]
        | none => m.filter (fun x => x.task_id == id) := by
  induction rs with
  | nil => intro m; rfl
  | cons r rs ih =>
    intro m
    rw [List.foldl_cons, ih]
    cases hl : latestRes rs id with
    | some x => simp [latestRes, hl]
    | none =>
      simp only [latestRes, hl]
      by_cases hr : r.task_id = id
      · subst hr
        rw [List.filter_append, List.filter_filter]
        have h1 : (m.filter
            (fun a => a.task_id == r.task_id && a.task_id != r.task_id)) = [] := by
          apply List.filter_eq_nil_iff.mpr
          intro a _
          by_cases ha : a.task_id = r.task_id <;> simp [ha]
        simp [h1]
      · rw [List.filter_append, List.filter_filter]
        have h2 : ∀ a : TaskResult,
            (a.task_id == id && a.task_id != r.task_id) = (a.task_id == id) := by
          intro a
          by_cases ha : a.task_id = id
          · subst ha
            simp [bne, Ne.symm hr]
          · simp [ha]
        have h3 : ([r].filter (fun x => x.task_id == id)) = [] := by
          simp [hr]
        simp only [h2, h3, List.append_nil]
        simp [beq_iff_eq, hr]

/-- The surviving dedup-map entry for a key is the last result carrying it. -/
theorem uniqueResults_filter (results : List TaskResult) (id : Nat) :
    (uniqueResults results).filter (fun x => x.task_id == id) =
      match latestRes results id with
      | some r => [r]
      | none => [] := by
  have h := filter_foldl_dedup id results []
  rw [uniqueResults, h]
  cases latestRes results id <;> rfl

/-! ### Claim theorems -/

/-- C1: for every list of N TaskInputs (duplicate task_ids allowed), both
execute_tasks and execute_tasks_streaming return a list of exactly N
TaskResults, one per submitted TaskInput, under any scheduler-chosen
completion-arrival order. -/
theorem engine_produces_one_result_per_submission
    (exec : Nat → Except String Unit) (tasks : List TaskInput)
    (a1 a2 : List Nat) (h1 : a1.Perm (List.range tasks.length))
    (h2 : a2.Perm (List.range tasks.length)) :
    (execute_tasks exec tasks a1).length = tasks.length ∧
    (execute_tasks_streaming exec tasks a2).length = tasks.length := by
  have hlen : (spawnResults exec tasks).length = tasks.length := by
    simp [spawnResults]
  constructor
  · rw [execute_tasks,
      (collectByArrival_perm (spawnResults exec tasks) a1
        (by rwa [hlen])).length_eq, hlen]
  · rw [execute_tasks_streaming,
      (collectByArrival_perm (spawnResults exec tasks) a2
        (by rwa [hlen])).length_eq, hlen]

/-- Witness for C1 at a concrete input: two submissions with the same
task_id yield two results under each strategy. -/
theorem engine_produces_one_result_per_submission_witness :
    (execute_tasks (fun _ => Except.ok ())
        [⟨101, "process_data"⟩, ⟨101, "process_data"⟩] [1, 0]).length = 2 ∧
    (execute_tasks_streaming (fun _ => Except.ok ())
        [⟨101, "process_data"⟩, ⟨101, "process_data"⟩] [0, 1]).length = 2 :=
  engine_produces_one_result_per_submission (fun _ => Except.ok ())
    [⟨101, "process_data"⟩, ⟨101, "process_data"⟩] [1, 0] [0, 1]
    (by decide) (by decide)

/-- C3: execute_single_task returns a TaskResult carrying the given
task_id; on executor success the status is Completed with no error_info,
and on any executor failure the status is Failed with error_info set to
the failure's description verbatim — the failure is data, never a
propagating error (the wrapper is a total function into TaskResult). -/
theorem executeSingleTask_outcome (exec : Nat → Except String Unit)
    (id : Nat) :
    (execute_single_task exec id).task_id = id ∧
    (exec id = Except.ok () →
      execute_single_task exec id =
        { task_id := id, status := TaskStatus.Completed,
          error_info := none }) ∧
    (∀ e, exec id = Except.error e →
      execute_single_task exec id =
        { task_id := id, status := TaskStatus.Failed,
          error_info := some e }) := by
  refine ⟨?_, ?_, ?_⟩
  · cases h : exec id with
    | ok u => cases u; simp [execute_single_task, h]
    | error e => simp [execute_single_task, h]
  · intro h
    simp [execute_single_task, h]
  · intro e h
    simp [execute_single_task, h]

/-- Witness for C3: concrete succeeding and failing executors. -/
theorem executeSingleTask_outcome_witness :
    execute_single_task (fun _ => Except.ok ()) 101 =
      { task_id := 101, status := TaskStatus.Completed,
        error_info := none } ∧
    execute_single_task (fun _ => Except.error "boom") 201 =
      { task_id := 201, status := TaskStatus.Failed,
        error_info := some "boom" } :=
  ⟨(executeSingleTask_outcome (fun _ => Except.ok ()) 101).2.1 rfl,
   (executeSingleTask_outcome (fun _ => Except.error "boom") 201).2.2
      "boom" rfl⟩

/-- C4: the projection of a TaskResult into a TaskOutput yields
final_status "Completed" exactly when the status is Completed, "Failed"
for every other status, and never any other string. -/
theorem taskOutput_final_status_total (r : TaskResult) :
    (r.status = TaskStatus.Completed →
      (TaskOutput.ofResult r).final_status = "Completed") ∧
    (r.status ≠ TaskStatus.Completed →
      (TaskOutput.ofResult r).final_status = "Failed") ∧
    ((TaskOutput.ofResult r).final_status = "Completed" ∨
      (TaskOutput.ofResult r).final_status = "Failed") := by
  refine ⟨?_, ?_, ?_⟩
  · intro h
    simp [TaskOutput.ofResult, h]
  · intro h
    cases hs : r.status
    case Completed => exact absurd hs h
    all_goals simp [TaskOutput.ofResult, hs]
  · cases hs : r.status <;> simp [TaskOutput.ofResult, hs]

/-- Witness for C4: a Completed, a Failed and a Pending result. -/
theorem taskOutput_final_status_total_witness :
    (TaskOutput.ofResult
        { task_id := 1, status := TaskStatus.Completed,
          error_info := none }).final_status = "Completed" ∧
    (TaskOutput.ofResult
        { task_id := 2, status := TaskStatus.Pending,
          error_info := none }).final_status = "Failed" ∧
    (TaskOutput.ofResult
        { task_id := 3, status := TaskStatus.Running,
          error_info := none }).final_status = "Failed" :=
  ⟨(taskOutput_final_status_total _).1 rfl,
   (taskOutput_final_status_total _).2.1 (by decide),
   (taskOutput_final_status_total _).2.1 (by decide)⟩

/-- C6: every TaskResult produced by execute_single_task, and hence every
TaskResult either strategy hands to the aggregator, has a terminal status
(Completed or Failed), never Pending or Running. -/
theorem results_are_terminal (exec : Nat → Except String Unit)
    (tasks : List TaskInput) (arrival : List Nat) (id : Nat) :
    isTerminal (execute_single_task exec id) = true ∧
    (execute_tasks exec tasks arrival).all isTerminal = true ∧
    (execute_tasks_streaming exec tasks arrival).all isTerminal = true := by
  have hall : ∀ x ∈ collectByArrival (spawnResults exec tasks) arrival,
      isTerminal x = true := by
    intro x hx
    have hx2 := mem_of_collectByArrival hx
    rw [spawnResults, List.mem_map] at hx2
    obtain ⟨t, _, rfl⟩ := hx2
    exact isTerminal_execute_single_task exec t.task_id
  exact ⟨isTerminal_execute_single_task exec id,
    List.all_eq_true.mpr hall, List.all_eq_true.mpr hall⟩

/-- C10: the projection into TaskOutput preserves task_id and copies
error_info through independently of the status (none becomes the empty
string, some s becomes s); in particular a Completed result with
error_info some s still carries s in the output record. -/
theorem taskOutput_preserves_id_and_error (r : TaskResult) :
    (TaskOutput.ofResult r).task_id = r.task_id ∧
    (TaskOutput.ofResult r).error_info = r.error_info.getD "" ∧
    (TaskOutput.ofResult
        { task_id := r.task_id, status := TaskStatus.Completed,
          error_info := r.error_info }).error_info = r.error_info.getD "" :=
  ⟨rfl, rfl, rfl⟩

/-- C2: for every list of TaskResults, the serialized output contains at
most one data record per distinct task_id, and the surviving record for a
task_id is exactly the projection of the last occurrence of that task_id
in input-list order (last-write-wins). -/
theorem resultCsv_dedup_last_write_wins (results : List TaskResult)
    (id : Nat) :
    ((writeRecords results).filter (fun o => o.task_id == id)).length ≤ 1 ∧
    (writeRecords results).filter (fun o => o.task_id == id) =
      match latestRes results id with
      | some r => [TaskOutput.ofResult r]
      | none => [] := by
  have hfilt : (writeRecords results).filter (fun o => o.task_id == id) =
      match latestRes results id with
      | some r => [TaskOutput.ofResult r]
      | none => [] := by
    rw [writeRecords, List.filter_map]
    have hpf : ((fun o : TaskOutput => o.task_id == id) ∘ TaskOutput.ofResult)
        = (fun x : TaskResult => x.task_id == id) := rfl
    rw [hpf, uniqueResults_filter]
    cases latestRes results id <;> rfl
  refine ⟨?_, hfilt⟩
  rw [hfilt]
  cases latestRes results id <;> simp

/-- C5: under a deterministic, side-effect-free Task Executor, the
multiset (hence the set) of (task_id, status) pairs returned by
execute_tasks equals the one returned by execute_tasks_streaming, for any
two scheduler-chosen arrival orders: the strategies differ only in result
order. -/
theorem strategies_agree_up_to_order (exec : Nat → Except String Unit)
    (tasks : List TaskInput) (a1 a2 : List Nat)
    (h1 : a1.Perm (List.range tasks.length))
    (h2 : a2.Perm (List.range tasks.length)) :
    ((execute_tasks exec tasks a1).map
        (fun r => (r.task_id, r.status))).Perm
      ((execute_tasks_streaming exec tasks a2).map
        (fun r => (r.task_id, r.status))) := by
  have hlen : (spawnResults exec tasks).length = tasks.length := by
    simp [spawnResults]
  have p1 := collectByArrival_perm (spawnResults exec tasks) a1
    (by rwa [hlen])
  have p2 := collectByArrival_perm (spawnResults exec tasks) a2
    (by rwa [hlen])
  exact (p1.trans p2.symm).map (fun r => (r.task_id, r.status))

/-- Witness for C5: concrete executor, tasks and two arrival orders. -/
theorem strategies_agree_up_to_order_witness :
    ((execute_tasks (fun n => if n == 102 then Except.error "boom"
          else Except.ok ())
        [⟨101, "a"⟩, ⟨102, "b"⟩] [1, 0]).map
        (fun r => (r.task_id, r.status))).Perm
      ((execute_tasks_streaming (fun n => if n == 102 then
          Except.error "boom" else Except.ok ())
        [⟨101, "a"⟩, ⟨102, "b"⟩] [0, 1]).map
        (fun r => (r.task_id, r.status))) :=
  strategies_agree_up_to_order _ [⟨101, "a"⟩, ⟨102, "b"⟩] [1, 0] [0, 1]
    (by decide) (by decide)

/-- C7 counterexample: for an empty list of TaskResults the code produces
empty output — the csv writer emits the header only on the first
serialized record, so the output is not the header row alone as claimed. -/
theorem emptyResults_header_cex :
    write_results_to_csv [] = [] ∧
    write_results_to_csv [] ≠ [csvHeaderRecord] := by
  refine ⟨rfl, ?_⟩
  intro h
  simp [write_results_to_csv, writeRecords, uniqueResults] at h

/-- C7 amended: for an empty list of TaskResults, write_results_to_csv
returns empty output — zero data rows and no header row. -/
theorem emptyResults_output_empty : write_results_to_csv [] = [] := rfl

/-- C8: the streaming (unordered-pool) strategy is selected exactly when
the parsed task count exceeds the threshold 1000; at or below 1000 the
bounded-queue strategy is used, whose channel capacity is 1000. -/
theorem streaming_selected_iff_above_threshold (tasks : List TaskInput) :
    (selectStrategy tasks.length = Strategy.streamingPool ↔
      tasks.length > 1000) ∧
    (tasks.length ≤ 1000 →
      selectStrategy tasks.length = Strategy.boundedQueue) ∧
    channelCapacity = 1000 := by
  refine ⟨?_, ?_, rfl⟩
  · constructor
    · intro h
      by_contra hn
      simp [selectStrategy, streamingThreshold, hn] at h
    · intro h
      simp [selectStrategy, streamingThreshold, h]
  · intro h
    have : ¬ tasks.length > 1000 := by omega
    simp [selectStrategy, streamingThreshold, this]

/-- Witness for C8: 1001 tasks select streaming, 1000 do not. -/
theorem streaming_selected_iff_above_threshold_witness :
    (selectStrategy (List.replicate 1001
        (⟨1, "t"⟩ : TaskInput)).length = Strategy.streamingPool) ∧
    (selectStrategy (List.replicate 1000
        (⟨1, "t"⟩ : TaskInput)).length = Strategy.boundedQueue) :=
  ⟨(streaming_selected_iff_above_threshold _).1.mpr
      (by rw [List.length_replicate]; omega),
   (streaming_selected_iff_above_threshold _).2.1
      (by rw [List.length_replicate])⟩

/-- C9: with other than exactly one positional argument, or when reading
or parsing the input fails, main returns an error, and its outcome is
independent of the executor and of any scheduling — no task executes
before the error is returned. -/
theorem mainModel_errors_before_execution (args : List String)
    (readResult : Except String (List TaskInput))
    (exec exec2 : Nat → Except String Unit) (arrival arrival2 : List Nat)
    (h : args.length ≠ 2 ∨ ∃ e, readResult = Except.error e) :
    (∃ msg, mainModel args readResult exec arrival = Except.error msg) ∧
    mainModel args readResult exec arrival =
      mainModel args readResult exec2 arrival2 := by
  by_cases ha : args.length = 2
  · rcases h with h | ⟨e, rfl⟩
    · exact absurd ha h
    · unfold mainModel
      simp [ha]
  · unfold mainModel
    simp [ha]

/-- Witness for C9: a run with no positional argument errors out,
whatever the executor. -/
theorem mainModel_errors_before_execution_witness :
    (∃ msg, mainModel ["task_orchestrator"] (Except.ok [⟨1, "t"⟩])
        (fun _ => Except.ok ()) [0] = Except.error msg) ∧
    mainModel ["task_orchestrator"] (Except.ok [⟨1, "t"⟩])
        (fun _ => Except.ok ()) [0] =
      mainModel ["task_orchestrator"] (Except.ok [⟨1, "t"⟩])
        (fun _ => Except.error "down") [] :=
  mainModel_errors_before_execution ["task_orchestrator"]
    (Except.ok [⟨1, "t"⟩]) (fun _ => Except.ok ())
    (fun _ => Except.error "down") [0] [] (Or.inl (by decide))
